import Mathlib

/-!
Verification development for the SEBI compliance-clause pipeline
(`src/agents/graph_nodes.py`, `src/agents/agent1.py`,
`src/agents/batch_processor.py`, `src/agents/config.py`).

Texts are modelled as `List Char`; Python string operations
(`lower`, `strip`, `in`, `startswith`, `replace`, `split('\n')`)
are embedded below with their Python semantics.  The external
text-generation oracle, the two regular-expression fast paths and the
web-search collaborator are modelled as opaque-valued parameters,
quantified over in the theorems.
-/

namespace Onfin

/-! ## Python string primitives -/

/-- Python whitespace characters stripped by `str.strip()`. -/
def isPySpace (c : Char) : Bool :=
  c == ' ' || c == '\t' || c == '\n' || c == '\r' ||
  c == Char.ofNat 11 || c == Char.ofNat 12

/-- Python `s.strip()` on a character list. -/
def stripList (l : List Char) : List Char :=
  ((l.dropWhile isPySpace).reverse.dropWhile isPySpace).reverse

/-- `listStartsWith needle l` is Python `l.startswith(needle)`. -/
def listStartsWith : List Char → List Char → Bool
  | [], _ => true
  | _ :: _, [] => false
  | a :: as, b :: bs => a == b && listStartsWith as bs

/-- `listHasSub needle hay` is Python `needle in hay` (substring test). -/
def listHasSub (needle : List Char) : List Char → Bool
  | [] => listStartsWith needle []
  | c :: rest => listStartsWith needle (c :: rest) || listHasSub needle rest

/-- Python `s.lower()` (ASCII case folding, as in the source texts). -/
def lowerList (l : List Char) : List Char := l.map Char.toLower

/-- Python `s.split('\n')`. -/
def splitNL : List Char → List (List Char)
  | [] => [[]]
  | c :: rest =>
    if c == '\n' then [] :: splitNL rest
    else
      match splitNL rest with
      | [] => [[c]]
      | h :: t => (c :: h) :: t

/-- Fuel-driven worker for Python `s.replace(needle, repl)`;
one unit of fuel per consumed character suffices. -/
def replFuel (needle repl : List Char) : Nat → List Char → List Char
  | 0, l => l
  | _ + 1, [] => []
  | fuel + 1, c :: rest =>
    if listStartsWith needle (c :: rest) && !needle.isEmpty then
      repl ++ replFuel needle repl fuel ((c :: rest).drop needle.length)
    else
      c :: replFuel needle repl fuel rest

/-- Python `s.replace(needle, repl)` (all occurrences, left to right);
the source never calls it with an empty needle. -/
def replaceAll (s needle repl : List Char) : List Char :=
  replFuel needle repl s.length s

/-- The single-quote character, kept out of string literals. -/
def squoteChar : Char := Char.ofNat 39

/-! ## Classifier (`classifier_node`, graph_nodes.py lines 195-253)

The two regular-expression sweeps over `INTERNAL_REF_PATTERNS` /
`EXTERNAL_REF_PATTERNS` are abstracted as boolean-valued parameters
`internalRefMatch` / `externalRefMatch`, and the oracle
(`llm.invoke`) as `oracle : List Char → Option (List Char)`
(`none` = the call raises or the handle is unavailable). -/

/-- The definition fast-path phrases of graph_nodes.py line 211:
`'"means"'`, `"'means'"`, `"shall mean"`, `"means and includes"`. -/
def definitionPhrases : List (List Char) :=
  [ "\"means\"".toList,
    squoteChar :: ("means".toList ++ [squoteChar]),
    "shall mean".toList,
    "means and includes".toList ]

/-- Normalization of the oracle's free-text category reply
(graph_nodes.py lines 240-250): strip, lower, drop quote characters,
then substring-containment tests defaulting to `direct_req`. -/
def normalizeCategory (reply : List Char) : String :=
  let category :=
    replaceAll (replaceAll (lowerList (stripList reply)) [squoteChar] [])
      ("\"".toList) []
  if listHasSub "definition".toList category then "definition"
  else if listHasSub "internal".toList category then "internal_ref"
  else if listHasSub "external".toList category then "external_ref"
  else "direct_req"

/-- `classifier_node`: returns `some (clause_type, oracleWasCalled)`, or
`none` when the oracle fallback is reached and the oracle call fails. -/
def classifier_node (internalRefMatch externalRefMatch : List Char → Bool)
    (oracle : List Char → Option (List Char)) (clause : List Char) :
    Option (String × Bool) :=
  let clauseLower := lowerList clause
  if definitionPhrases.any (fun p => listHasSub p clauseLower) then
    some ("definition", false)
  else if internalRefMatch clause then
    some ("internal_ref", false)
  else if externalRefMatch clause then
    some ("external_ref", false)
  else
    match oracle clause with
    | none => none
    | some reply => some (normalizeCategory reply, true)

/-! ## Router (`route_after_classifier`, `route_after_definition`,
graph_nodes.py lines 648-703) and the compiled graph
(`build_compliance_graph`, agent1.py lines 138-228) -/

/-- `route_after_classifier`: the `routes` dict lookup with default
`"glossary"` (graph_nodes.py lines 648-667). -/
def route_after_classifier (clause_type : String) : String :=
  if clause_type = "definition" then "definition_analysis"
  else if clause_type = "internal_ref" then "internal_reference"
  else if clause_type = "external_ref" then "external_reference"
  else if clause_type = "direct_req" then "glossary"
  else "glossary"

/-- `route_after_definition`: the three decision diamonds
(graph_nodes.py lines 670-703). -/
def route_after_definition (is_new other_use has_deps : Bool) : String :=
  if is_new then "no_actionable"
  else if !other_use then "no_actionable"
  else if !has_deps then "no_actionable"
  else "glossary"

/-- The routing-relevant fields of `ComplianceState` after the
classifier and (on the definition path) the definition analyzer ran. -/
structure RouteState where
  clause_type : String
  is_new_definition : Bool
  other_clauses_use_definition : Bool
  dependent_clauses_have_actionables : Bool

/-- One transition of the compiled graph of `build_compliance_graph`
(agent1.py lines 180-219); `none` is the END sentinel. -/
def graphStep (st : RouteState) (node : String) : Option String :=
  if node = "classifier" then
    some (route_after_classifier st.clause_type)
  else if node = "definition_analysis" then
    some (route_after_definition st.is_new_definition
      st.other_clauses_use_definition st.dependent_clauses_have_actionables)
  else if node = "internal_reference" then some "glossary"
  else if node = "external_reference" then some "glossary"
  else if node = "glossary" then some "org_context"
  else if node = "org_context" then some "actionable"
  else none

/-- The node sequence visited from `node`, following `graphStep`
until END (bounded by fuel; the graph is a 5-level DAG). -/
def runFrom (st : RouteState) : Nat → String → List String
  | 0, node => [node]
  | fuel + 1, node =>
    node :: (match graphStep st node with
      | none => []
      | some next => runFrom st fuel next)

/-- A single-clause execution: the path from the entry node. -/
def execPath (st : RouteState) : List String := runFrom st 8 "classifier"

/-- The two terminal nodes of the compiled graph. -/
def isTerminalNode (n : String) : Bool :=
  n == "actionable" || n == "no_actionable"

/-! ## Actionable Generator (`actionable_node`, graph_nodes.py lines 537-619)
and No-Actionable terminator (`no_actionable_node`, lines 627-640) -/

/-- The output fields written by the two terminal nodes. -/
structure ActionableOut where
  actionables : List (List Char)
  actionable_count : Nat
  is_applicable : Bool
  deriving DecidableEq

def actionableMarker : List Char := "ACTIONABLE:".toList

def notApplicableMarker : List Char := "NOT_APPLICABLE".toList

/-- The body of the parsing loop of `actionable_node`
(graph_nodes.py lines 607-611): a line contributes
`line.replace("ACTIONABLE:", "").strip()` when `line.strip()` starts
with the marker and the resulting action is nonempty. -/
def parseActionableLine (line : List Char) : Option (List Char) :=
  if listStartsWith actionableMarker (stripList line) then
    let action := stripList (replaceAll line actionableMarker [])
    if action.isEmpty then none else some action
  else none

/-- One loop iteration of `actionable_node`: append the parsed action
of the line, when there is one. -/
def appendParsed (acc : List (List Char)) (line : List Char) : List (List Char) :=
  match parseActionableLine line with
  | some action => acc ++ [action]
  | none => acc

/-- The reply-parsing logic of `actionable_node` (lines 596-619):
strip the oracle reply; if it starts with `NOT_APPLICABLE` then
not applicable with no actionables, otherwise walk the lines,
appending the contribution of `parseActionableLine` for each line. -/
def actionable_node (oracleReply : List Char) : ActionableOut :=
  let result := stripList oracleReply
  if listStartsWith notApplicableMarker result then
    { actionables := [], actionable_count := 0, is_applicable := false }
  else
    let actionables := (splitNL result).foldl appendParsed []
    { actionables := actionables,
      actionable_count := actionables.length,
      is_applicable := true }

/-- `no_actionable_node` (graph_nodes.py lines 627-640). -/
def no_actionable_node : ActionableOut :=
  { actionables := [], actionable_count := 0, is_applicable := false }

/-- The parse rule exactly as claim C7 states it: collect every line
beginning with the `ACTIONABLE:` marker, with the (leading) marker
stripped, preserving order. -/
def actionablesClaimed (oracleReply : List Char) : List (List Char) :=
  (splitNL (stripList oracleReply)).filterMap (fun line =>
    if listStartsWith actionableMarker line then
      some (line.drop actionableMarker.length)
    else none)

/-- The parse rule as amended for C7: a line counts when its
whitespace-stripped form begins with the marker; every occurrence of
the marker is removed from the line and the result trimmed; results
that come out empty are dropped; order is preserved. -/
def actionablesAmended (oracleReply : List Char) : List (List Char) :=
  (splitNL (stripList oracleReply)).filterMap parseActionableLine

/-! ## Terminology Normalizer (`glossary_node`, graph_nodes.py lines 456-484) -/

/-- `ABBREVIATION_EXPANSIONS` (config.py lines 54-61), in insertion
order. -/
def ABBREVIATION_EXPANSIONS : List (List Char × List Char) :=
  [ ("AMC".toList, "Asset Management Company".toList),
    ("MF".toList, "Mutual Fund".toList),
    ("FPI".toList, "Foreign Portfolio Investor".toList),
    ("FII".toList, "Foreign Institutional Investor".toList),
    ("ETF".toList, "Exchange Traded Fund".toList),
    ("SEBI".toList, "Securities and Exchange Board of India".toList) ]

/-- One iteration of the abbreviation loop of `glossary_node`
(lines 469-472): if the abbreviation occurs and its expansion does
not, replace every occurrence by `ABBR (Expansion)`. -/
def expandStep (normalized : List Char) (p : List Char × List Char) : List Char :=
  if listHasSub p.1 normalized && !listHasSub p.2 normalized then
    replaceAll normalized p.1 (p.1 ++ " (".toList ++ p.2 ++ ")".toList)
  else normalized

/-- The `normalized_text` computation of `glossary_node`: the input
text with the abbreviation expansions applied in table order.  (The
node's `glossary_terms_used` bookkeeping never modifies the text and
no claim concerns it.)  The node consults no oracle. -/
def glossaryNormalize (text : List Char) : List Char :=
  ABBREVIATION_EXPANSIONS.foldl expandStep text

/-! ## Organization Context Loader (`org_context_node`,
graph_nodes.py lines 492-529) with the registry of config.py -/

/-- A Python value, as needed to transcribe the context dicts. -/
inductive PyVal where
  | str (s : String)
  | bool (b : Bool)
  | int (n : Int)
  | list (xs : List PyVal)
  | dict (entries : List (String × PyVal))

/-- `HDFC_AMC_CONTEXT` (config.py lines 68-136). -/
def HDFC_AMC_CONTEXT : List (String × PyVal) :=
  [ ("entity_name", .str "HDFC Asset Management Company Limited"),
    ("short_names", .list [.str "HDFC AMC", .str "HDFC Mutual Fund", .str "HDFC MF"]),
    ("role_in_custodian_regulations", .str "Client"),
    ("entity_type", .str "Asset Management Company"),
    ("total_schemes", .int 100),
    ("scheme_categories", .dict
      [ ("equity", .int 35), ("debt", .int 30), ("hybrid", .int 15),
        ("liquid", .int 5), ("gold_etf", .int 1), ("silver_etf", .int 1),
        ("fund_of_funds", .int 8), ("index_funds", .int 5) ]),
    ("has_gold_etf", .bool true),
    ("has_silver_etf", .bool true),
    ("has_commodity_schemes", .bool true),
    ("has_real_estate_schemes", .bool false),
    ("custodians", .list
      [ .dict [ ("name", .str "HDFC Bank Limited"),
                ("role", .str "Primary Custodian"),
                ("services", .list [.str "securities", .str "gold", .str "silver"]) ],
        .dict [ ("name", .str "Deutsche Bank AG"),
                ("role", .str "Secondary Custodian"),
                ("services", .list [.str "securities"]) ] ]),
    ("custodian_count", .int 2),
    ("aum_inr_crore", .int 650000),
    ("aum_category", .str "Large"),
    ("investor_count", .int 10000000),
    ("is_listed", .bool true),
    ("stock_exchanges", .list [.str "NSE", .str "BSE"]),
    ("sebi_registration", .str "MF/HDFC/2000"),
    ("compliance_factors", .dict
      [ ("large_amc", .bool true), ("multiple_custodians", .bool true),
        ("commodity_custody", .bool true), ("listed_entity", .bool true),
        ("high_investor_base", .bool true) ]),
    ("applicable_regulations", .dict
      [ ("reg_15_gold_silver", .bool true), ("reg_16_separate_accounts", .bool true),
        ("reg_17_agreement", .bool true), ("reg_17a_dispute_resolution", .bool true),
        ("reg_19_records", .bool true), ("code_of_conduct", .bool true) ]) ]

/-- `NAVI_AMC_CONTEXT` (config.py lines 138-198). -/
def NAVI_AMC_CONTEXT : List (String × PyVal) :=
  [ ("entity_name", .str "Navi AMC Limited"),
    ("short_names", .list [.str "Navi AMC", .str "Navi Mutual Fund", .str "Navi MF"]),
    ("role_in_custodian_regulations", .str "Client"),
    ("entity_type", .str "Asset Management Company"),
    ("total_schemes", .int 30),
    ("scheme_categories", .dict
      [ ("equity", .int 10), ("debt", .int 8), ("hybrid", .int 5),
        ("liquid", .int 3), ("index_funds", .int 4) ]),
    ("has_gold_etf", .bool false),
    ("has_silver_etf", .bool false),
    ("has_commodity_schemes", .bool false),
    ("has_real_estate_schemes", .bool false),
    ("custodians", .list
      [ .dict [ ("name", .str "Axis Bank Limited"),
                ("role", .str "Primary Custodian"),
                ("services", .list [.str "securities"]) ] ]),
    ("custodian_count", .int 1),
    ("aum_inr_crore", .int 15000),
    ("aum_category", .str "Medium"),
    ("investor_count", .int 1000000),
    ("is_listed", .bool false),
    ("stock_exchanges", .list []),
    ("sebi_registration", .str "MF/NAVI/2021"),
    ("compliance_factors", .dict
      [ ("large_amc", .bool false), ("multiple_custodians", .bool false),
        ("commodity_custody", .bool false), ("listed_entity", .bool false),
        ("high_investor_base", .bool false) ]),
    ("applicable_regulations", .dict
      [ ("reg_15_gold_silver", .bool false), ("reg_16_separate_accounts", .bool true),
        ("reg_17_agreement", .bool true), ("reg_17a_dispute_resolution", .bool true),
        ("reg_19_records", .bool true), ("code_of_conduct", .bool true) ]) ]

/-- `ORG_CONTEXTS` (config.py lines 201-208), in insertion order. -/
def ORG_CONTEXTS : List (String × List (String × PyVal)) :=
  [ ("HDFC AMC", HDFC_AMC_CONTEXT),
    ("HDFC", HDFC_AMC_CONTEXT),
    ("HDFC Mutual Fund", HDFC_AMC_CONTEXT),
    ("Navi AMC", NAVI_AMC_CONTEXT),
    ("Navi", NAVI_AMC_CONTEXT),
    ("Navi Mutual Fund", NAVI_AMC_CONTEXT) ]

/-- Behavior of the `query_exa` web-search collaborator as observed by
`org_context_node`: a call either returns normally — with or without a
truthy `choices` attribute — or raises. -/
inductive WebSearchOutcome where
  | success (hasChoices : Bool) (content : String)
  | failure

/-- `org_context_node` (graph_nodes.py lines 492-529): registry lookup
by case-insensitive key-in-name containment, else web-search fallback.
Note the path where the search returns without choices leaves the
context `None`. -/
def org_context_node (org_name : String) (web : WebSearchOutcome) :
    Option (List (String × PyVal)) :=
  match ORG_CONTEXTS.find?
      (fun kv => listHasSub (lowerList kv.1.toList) (lowerList org_name.toList)) with
  | some kv => some kv.2
  | none =>
    match web with
    | .success hasChoices content =>
      if hasChoices then
        some [ ("entity_name", .str org_name),
               ("role_in_custodian_regulations", .str "Client"),
               ("search_result", .str (content.take 1000)),
               ("compliance_factors", .dict [("unknown", .bool true)]) ]
      else none
    | .failure =>
      some [ ("entity_name", .str org_name),
             ("role_in_custodian_regulations", .str "Client"),
             ("compliance_factors", .dict []) ]

/-! ## Batch driver (`process_all_chunks`, batch_processor.py lines 26-100)

`process_clause` (the whole per-clause graph run) is abstracted as a
parameter `proc`; `Except.error` models the call raising. -/

/-- The chunk fields the driver reads. -/
structure Chunk where
  chunk_id : String
  section_type : String
  content : String

/-- The dict returned by `process_clause` (agent1.py lines 283-291),
restricted to the fields the batch driver consumes. -/
structure ClauseResult where
  chunk_id : String
  clause_type : String
  is_applicable : Bool
  actionables : List String
  actionable_count : Nat

/-- One entry of the driver's `results` list. -/
structure ChunkRecord where
  chunk_id : String
  error : Option String
  is_applicable : Bool
  actionables : List String
  actionable_count : Nat
  deriving DecidableEq

/-- The record appended on success (batch_processor.py line 76). -/
def okRecord (r : ClauseResult) : ChunkRecord :=
  { chunk_id := r.chunk_id, error := none, is_applicable := r.is_applicable,
    actionables := r.actionables, actionable_count := r.actionable_count }

/-- The record appended when `process_clause` raises
(batch_processor.py lines 82-90). -/
def errRecord (chunk_id msg : String) : ChunkRecord :=
  { chunk_id := chunk_id, error := some msg, is_applicable := false,
    actionables := [], actionable_count := 0 }

/-- The aggregates returned by `process_all_chunks` (lines 92-100);
`total_chunks_processed` is `results.length` and `timestamp` is I/O. -/
structure BatchOutput where
  results : List ChunkRecord
  skipped_chunks : Nat
  applicable_chunks : Nat
  total_actionables : Nat
  deriving DecidableEq

/-- The two skip conditions of the driver loop (lines 52-60), combined:
TOC/preamble skip (when `skip_toc`) and the empty/short-content skip. -/
def shouldSkipChunk (skip_toc : Bool) (c : Chunk) : Bool :=
  (skip_toc && (c.section_type == "toc" || c.section_type == "preamble"))
  || (c.content == "" || (stripList c.content.toList).length < 50)

/-- `process_all_chunks` (batch_processor.py lines 26-100): the loop
over `chunks`, skipping TOC/preamble and short chunks, recording a
success or error entry per processed chunk and accumulating the
applicable/actionable totals. -/
def process_all_chunks (proc : Chunk → Except String ClauseResult)
    (skip_toc : Bool) : List Chunk → BatchOutput
  | [] =>
    { results := [], skipped_chunks := 0, applicable_chunks := 0,
      total_actionables := 0 }
  | c :: rest =>
    let o := process_all_chunks proc skip_toc rest
    if skip_toc && (c.section_type == "toc" || c.section_type == "preamble") then
      { o with skipped_chunks := o.skipped_chunks + 1 }
    else if c.content == "" || (stripList c.content.toList).length < 50 then
      { o with skipped_chunks := o.skipped_chunks + 1 }
    else
      match proc c with
      | .ok r =>
        { results := okRecord r :: o.results,
          skipped_chunks := o.skipped_chunks,
          applicable_chunks := (if r.is_applicable then 1 else 0) + o.applicable_chunks,
          total_actionables :=
            (if r.is_applicable then r.actionable_count else 0) + o.total_actionables }
      | .error e =>
        { o with results := errRecord c.chunk_id e :: o.results }

/-! ## Helper lemmas -/

lemma listStartsWith_length : ∀ {needle l : List Char},
    listStartsWith needle l = true → needle.length ≤ l.length := by
  intro needle
  induction needle with
  | nil => intro l _; simp
  | cons a as ih =>
    intro l h
    cases l with
    | nil => simp [listStartsWith] at h
    | cons b bs =>
      simp only [listStartsWith, Bool.and_eq_true] at h
      simp only [List.length_cons]
      exact Nat.succ_le_succ (ih h.2)

lemma replFuel_ge (needle repl : List Char) (hr : needle.length ≤ repl.length) :
    ∀ (fuel : Nat) (l : List Char),
      l.length ≤ (replFuel needle repl fuel l).length := by
  intro fuel
  induction fuel with
  | zero => intro l; simp [replFuel]
  | succ k ih =>
    intro l
    cases l with
    | nil => simp [replFuel]
    | cons c rest =>
      by_cases hst : (listStartsWith needle (c :: rest) && !needle.isEmpty) = true
      · have hlen : needle.length ≤ (c :: rest).length :=
          listStartsWith_length ((Bool.and_eq_true _ _).mp hst).1
        have hrec := ih ((c :: rest).drop needle.length)
        have hdrop : ((c :: rest).drop needle.length).length
            = (c :: rest).length - needle.length := List.length_drop _ _
        simp only [replFuel, if_pos hst, List.length_append]
        omega
      · simp only [replFuel, if_neg hst, List.length_cons]
        have := ih rest
        omega

lemma replaceAll_ge (s needle repl : List Char)
    (hr : needle.length ≤ repl.length) :
    s.length ≤ (replaceAll s needle repl).length :=
  replFuel_ge needle repl hr s.length s

lemma expandStep_ge (t : List Char) (p : List Char × List Char) :
    t.length ≤ (expandStep t p).length := by
  unfold expandStep
  by_cases h : (listHasSub p.1 t && !listHasSub p.2 t) = true
  · rw [if_pos h]
    refine replaceAll_ge t p.1 _ ?_
    simp [List.length_append]
  · rw [if_neg h]

lemma foldl_expand_ge : ∀ (ps : List (List Char × List Char)) (t : List Char),
    t.length ≤ (ps.foldl expandStep t).length := by
  intro ps
  induction ps with
  | nil => intro t; simp
  | cons p ps ih =>
    intro t
    calc t.length ≤ (expandStep t p).length := expandStep_ge t p
    _ ≤ _ := by rw [List.foldl_cons]; exact ih (expandStep t p)

lemma foldl_expand_id : ∀ (ps : List (List Char × List Char)) (t : List Char),
    (∀ p ∈ ps, listHasSub p.1 t = false) → ps.foldl expandStep t = t := by
  intro ps
  induction ps with
  | nil => intro t _; rfl
  | cons p ps ih =>
    intro t h
    have h1 : listHasSub p.1 t = false := h p (by simp)
    have hstep : expandStep t p = t := by simp [expandStep, h1]
    rw [List.foldl_cons, hstep]
    exact ih t (fun q hq => h q (List.mem_cons_of_mem _ hq))

lemma runFrom_glossary (st : RouteState) :
    runFrom st 7 "glossary" = ["glossary", "org_context", "actionable"] := rfl

lemma foldl_appendParsed :
    ∀ (lines : List (List Char)) (acc : List (List Char)),
      lines.foldl appendParsed acc = acc ++ lines.filterMap parseActionableLine := by
  intro lines
  induction lines with
  | nil => intro acc; simp
  | cons l ls ih =>
    intro acc
    cases hfx : parseActionableLine l with
    | some a => simp [appendParsed, hfx, ih]
    | none => simp [appendParsed, hfx, ih]

lemma process_cons_skip (proc : Chunk → Except String ClauseResult)
    (skip_toc : Bool) (c : Chunk) (rest : List Chunk)
    (hskip : shouldSkipChunk skip_toc c = true) :
    process_all_chunks proc skip_toc (c :: rest)
      = { process_all_chunks proc skip_toc rest with
          skipped_chunks :=
            (process_all_chunks proc skip_toc rest).skipped_chunks + 1 } := by
  by_cases hA : (skip_toc && (c.section_type == "toc" || c.section_type == "preamble")) = true
  · show (if _ then _ else _) = _
    rw [if_pos hA]
  · have hA' : (skip_toc && (c.section_type == "toc" || c.section_type == "preamble")) = false := by
      cases h : (skip_toc && (c.section_type == "toc" || c.section_type == "preamble"))
      · rfl
      · exact absurd h hA
    unfold shouldSkipChunk at hskip
    rw [hA', Bool.false_or] at hskip
    show (if _ then _ else if _ then _ else _) = _
    rw [if_neg hA, if_pos hskip]

lemma process_cons_keep (proc : Chunk → Except String ClauseResult)
    (skip_toc : Bool) (c : Chunk) (rest : List Chunk)
    (hskip : shouldSkipChunk skip_toc c = false) :
    process_all_chunks proc skip_toc (c :: rest)
      = (match proc c with
        | .ok r =>
          { results := okRecord r :: (process_all_chunks proc skip_toc rest).results,
            skipped_chunks := (process_all_chunks proc skip_toc rest).skipped_chunks,
            applicable_chunks := (if r.is_applicable then 1 else 0)
              + (process_all_chunks proc skip_toc rest).applicable_chunks,
            total_actionables := (if r.is_applicable then r.actionable_count else 0)
              + (process_all_chunks proc skip_toc rest).total_actionables }
        | .error e =>
          { process_all_chunks proc skip_toc rest with
            results := errRecord c.chunk_id e
              :: (process_all_chunks proc skip_toc rest).results }) := by
  unfold shouldSkipChunk at hskip
  have hA : (skip_toc && (c.section_type == "toc" || c.section_type == "preamble")) = false := by
    cases h : (skip_toc && (c.section_type == "toc" || c.section_type == "preamble"))
    · rfl
    · rw [h, Bool.true_or] at hskip; exact absurd hskip (by simp)
  rw [hA, Bool.false_or] at hskip
  show (if _ then _ else if _ then _ else _) = _
  rw [if_neg (by rw [hA]; exact Bool.false_ne_true),
    if_neg (by rw [hskip]; exact Bool.false_ne_true)]

lemma batch_results_eq (proc : Chunk → Except String ClauseResult)
    (skip_toc : Bool) :
    ∀ chunks : List Chunk,
      (process_all_chunks proc skip_toc chunks).results
        = (chunks.filter (fun c => !shouldSkipChunk skip_toc c)).map
            (fun c => match proc c with
              | .ok r => okRecord r
              | .error e => errRecord c.chunk_id e) := by
  intro chunks
  induction chunks with
  | nil => rfl
  | cons c rest ih =>
    cases hskip : shouldSkipChunk skip_toc c with
    | true =>
      rw [process_cons_skip proc skip_toc c rest hskip]
      simp [List.filter_cons, hskip, ih]
    | false =>
      rw [process_cons_keep proc skip_toc c rest hskip]
      cases hp : proc c with
      | ok r => simp [List.filter_cons, hskip, hp, ih]
      | error e => simp [List.filter_cons, hskip, hp, ih]

lemma batch_skipped_eq (proc : Chunk → Except String ClauseResult)
    (skip_toc : Bool) :
    ∀ chunks : List Chunk,
      (process_all_chunks proc skip_toc chunks).skipped_chunks
        = (chunks.filter (shouldSkipChunk skip_toc)).length := by
  intro chunks
  induction chunks with
  | nil => rfl
  | cons c rest ih =>
    cases hskip : shouldSkipChunk skip_toc c with
    | true =>
      rw [process_cons_skip proc skip_toc c rest hskip]
      simp [List.filter_cons, hskip, ih]
    | false =>
      rw [process_cons_keep proc skip_toc c rest hskip]
      cases hp : proc c with
      | ok r => simp [List.filter_cons, hskip, hp, ih]
      | error e => simp [List.filter_cons, hskip, hp, ih]

lemma batch_totals_eq (proc : Chunk → Except String ClauseResult)
    (skip_toc : Bool) :
    ∀ chunks : List Chunk,
      (process_all_chunks proc skip_toc chunks).total_actionables
        = ((chunks.filter (fun c => !shouldSkipChunk skip_toc c)).map
            (fun c => match proc c with
              | .ok r => if r.is_applicable then r.actionable_count else 0
              | .error _ => 0)).sum := by
  intro chunks
  induction chunks with
  | nil => rfl
  | cons c rest ih =>
    cases hskip : shouldSkipChunk skip_toc c with
    | true =>
      rw [process_cons_skip proc skip_toc c rest hskip]
      simp [List.filter_cons, hskip, ih]
    | false =>
      rw [process_cons_keep proc skip_toc c rest hskip]
      cases hp : proc c with
      | ok r => simp [List.filter_cons, hskip, hp, ih]
      | error e => simp [List.filter_cons, hskip, hp, ih]

lemma batch_congr (proc proc' : Chunk → Except String ClauseResult)
    (skip_toc : Bool) :
    ∀ chunks : List Chunk,
      (∀ c ∈ chunks, shouldSkipChunk skip_toc c = false → proc c = proc' c) →
      process_all_chunks proc skip_toc chunks
        = process_all_chunks proc' skip_toc chunks := by
  intro chunks
  induction chunks with
  | nil => intro _; rfl
  | cons c rest ih =>
    intro h
    have hrest := ih (fun q hq hsq => h q (List.mem_cons_of_mem _ hq) hsq)
    cases hskip : shouldSkipChunk skip_toc c with
    | true =>
      rw [process_cons_skip proc skip_toc c rest hskip,
        process_cons_skip proc' skip_toc c rest hskip, hrest]
    | false =>
      have hc : proc c = proc' c := h c (by simp) hskip
      rw [process_cons_keep proc skip_toc c rest hskip,
        process_cons_keep proc' skip_toc c rest hskip, hc, hrest]

/-! ## Claim theorems -/

/-- Claim C1: for every value of `clause_type` (the four enum values
and any unrecognized value), `route_after_classifier` dispatches to
exactly the successor given by the transition table (`definition` to
`definition_analysis`, `internal_ref` to `internal_reference`,
`external_ref` to `external_reference`, `direct_req` or unrecognized
to `glossary`); in the compiled graph every single-clause execution
visits exactly one of the two terminal nodes, ends on it, and
`no_actionable` is visited only when the clause type is `definition`
and the path went through `definition_analysis`. -/
theorem routing_c1 (st : RouteState) :
    (route_after_classifier st.clause_type =
      if st.clause_type = "definition" then "definition_analysis"
      else if st.clause_type = "internal_ref" then "internal_reference"
      else if st.clause_type = "external_ref" then "external_reference"
      else "glossary")
    ∧ (execPath st).countP isTerminalNode = 1
    ∧ isTerminalNode ((execPath st).getLastD "") = true
    ∧ ((execPath st).contains "no_actionable" = true →
        st.clause_type = "definition" ∧
        (execPath st).contains "definition_analysis" = true) := by
  obtain ⟨ct, n, u, d⟩ := st
  by_cases h1 : ct = "definition"
  · subst h1; cases n <;> cases u <;> cases d <;> decide
  · by_cases h2 : ct = "internal_ref"
    · subst h2; cases n <;> cases u <;> cases d <;> decide
    · by_cases h3 : ct = "external_ref"
      · subst h3; cases n <;> cases u <;> cases d <;> decide
      · by_cases h4 : ct = "direct_req"
        · subst h4; cases n <;> cases u <;> cases d <;> decide
        · have hroute : route_after_classifier ct = "glossary" := by
            simp [route_after_classifier, h1, h2, h3, h4]
          have hpath : execPath ⟨ct, n, u, d⟩
              = "classifier" :: runFrom ⟨ct, n, u, d⟩ 7 (route_after_classifier ct) := rfl
          rw [hroute, runFrom_glossary] at hpath
          refine ⟨by simp [route_after_classifier, h1, h2, h3, h4], ?_, ?_, ?_⟩
          · rw [hpath]; decide
          · rw [hpath]; decide
          · rw [hpath]; intro hc; exact absurd hc (by decide)

/-- Instantiation of `routing_c1` at the concrete state where the
conditional conjunct fires: a new definition reaches `no_actionable`
through `definition_analysis`. -/
theorem routing_c1_witness :
    (RouteState.mk "definition" true false false).clause_type = "definition"
    ∧ (execPath ⟨"definition", true, false, false⟩).contains "definition_analysis" = true :=
  (routing_c1 ⟨"definition", true, false, false⟩).2.2.2 (by decide)

/-- Claim C2: for every combination of the three booleans written by
the definition analyzer, `route_after_definition` routes to
`no_actionable` iff `is_new_definition` is true, or
`other_clauses_use_definition` is false, or
`dependent_clauses_have_actionables` is false; in every remaining
case it routes to `glossary`. -/
theorem definition_routing_c2 :
    ∀ is_new other_use has_deps : Bool,
      (route_after_definition is_new other_use has_deps = "no_actionable"
        ↔ (is_new = true ∨ other_use = false ∨ has_deps = false))
      ∧ (route_after_definition is_new other_use has_deps = "glossary"
        ↔ ¬(is_new = true ∨ other_use = false ∨ has_deps = false)) := by
  decide

/-- Claim C3 is false as stated: the oracle reply `"hello"` carries no
`NOT_APPLICABLE` marker and no `ACTIONABLE:` line, and the Actionable
Generator then emits an empty actionables list together with
`is_applicable = true`, breaking the claimed equivalence. -/
theorem actionable_c3_counterexample :
    ¬(((actionable_node "hello".toList).actionables = [])
      ↔ ((actionable_node "hello".toList).is_applicable = false)) := by
  decide

/-- Claim C3 as amended: in every terminal state,
`is_applicable = false` implies that `actionables` is empty, and a
nonempty `actionables` implies `is_applicable = true` (the No-Actionable
terminator satisfies both); the converse direction fails only for an
applicable reply from which zero actionable lines were parsed. -/
theorem actionable_c3_amended (reply : List Char) :
    ((actionable_node reply).is_applicable = false →
      (actionable_node reply).actionables = [])
    ∧ ((actionable_node reply).actionables ≠ [] →
      (actionable_node reply).is_applicable = true)
    ∧ no_actionable_node.actionables = []
    ∧ no_actionable_node.is_applicable = false := by
  unfold actionable_node
  by_cases h : listStartsWith notApplicableMarker (stripList reply) = true
  · simp [h, no_actionable_node]
  · simp [h, no_actionable_node]

/-- Instantiation of `actionable_c3_amended` at a concrete
not-applicable oracle reply. -/
theorem actionable_c3_witness :
    (actionable_node "NOT_APPLICABLE: commodity custody only".toList).actionables = [] :=
  (actionable_c3_amended _).1 (by decide)

/-- Claim C4 is false as stated: the clause
`"custodian means a person"` contains the unquoted word `means`, yet
the Classifier's fast path does not fire — with reference patterns
not matching and an oracle replying `direct_req`, the clause is
classified `direct_req` and the oracle is called. -/
theorem classifier_c4_counterexample :
    listHasSub "means".toList (lowerList "custodian means a person".toList) = true
    ∧ classifier_node (fun _ => false) (fun _ => false)
        (fun _ => some "direct_req".toList)
        "custodian means a person".toList = some ("direct_req", true) := by
  decide

/-- Claim C4 as amended: for every clause text containing, after
lowercasing, one of the four exact phrases of the fast-path list —
`"means"` in double quotes, `means` in single quotes, `shall mean`,
or `means and includes` — the Classifier classifies the clause as
`definition` via the fast path, for every behavior of the reference
patterns and of the oracle, and without calling the oracle. -/
theorem classifier_c4_amended
    (internalRefMatch externalRefMatch : List Char → Bool)
    (oracle : List Char → Option (List Char)) (clause : List Char)
    (h : listHasSub "\"means\"".toList (lowerList clause) = true
      ∨ listHasSub (squoteChar :: ("means".toList ++ [squoteChar])) (lowerList clause) = true
      ∨ listHasSub "shall mean".toList (lowerList clause) = true
      ∨ listHasSub "means and includes".toList (lowerList clause) = true) :
    classifier_node internalRefMatch externalRefMatch oracle clause
      = some ("definition", false) := by
  have hany : definitionPhrases.any (fun p => listHasSub p (lowerList clause)) = true := by
    simp only [definitionPhrases, List.any_cons, List.any_nil, Bool.or_false,
      Bool.or_eq_true]
    rcases h with h | h | h | h
    · exact Or.inl h
    · exact Or.inr (Or.inl h)
    · exact Or.inr (Or.inr (Or.inl h))
    · exact Or.inr (Or.inr (Or.inr h))
  simp [classifier_node, hany]

/-- Instantiation of `classifier_c4_amended` at a clause containing a
double-quoted `"means"`, with both pattern matchers answering true and
the oracle unavailable. -/
theorem classifier_c4_witness :
    classifier_node (fun _ => true) (fun _ => true) (fun _ => none)
      "The word \"means\" appears quoted here.".toList
      = some ("definition", false) :=
  classifier_c4_amended _ _ _ _ (Or.inl (by decide))

/-- Claim C5 is false as stated: for input text `"SEBI"` and the
empty oracle output (shorter than 0.6 times the input length), the
Normalizer still rewrites the text — it never consults the oracle and
performs abbreviation expansion unconditionally, so `normalized_text`
differs from the input. -/
theorem glossary_c5_counterexample :
    10 * (List.length ([] : List Char)) < 6 * (List.length "SEBI".toList)
    ∧ glossaryNormalize "SEBI".toList ≠ "SEBI".toList := by
  decide

/-- Claim C5 as amended: the Normalizer never consults the oracle (its
output is a function of the input text alone); mechanical abbreviation
expansion never shortens the text, so the emitted `normalized_text` is
at least as long as the input (in particular never below 0.6 times its
length), and it equals the input exactly when no abbreviation of the
table occurs in it. -/
theorem glossary_c5_amended (text : List Char) :
    text.length ≤ (glossaryNormalize text).length
    ∧ ((∀ p ∈ ABBREVIATION_EXPANSIONS, listHasSub p.1 text = false) →
        glossaryNormalize text = text) := by
  unfold glossaryNormalize
  exact ⟨foldl_expand_ge ABBREVIATION_EXPANSIONS text,
    fun h => foldl_expand_id ABBREVIATION_EXPANSIONS text h⟩

/-- Instantiation of `glossary_c5_amended` at a text containing no
abbreviation of the table. -/
theorem glossary_c5_witness :
    glossaryNormalize "hello".toList = "hello".toList :=
  (glossary_c5_amended _).2 (by decide)

/-- Claim C6 names a real code bug: when `org_name` matches no registry
key and the web search returns successfully but without a truthy
`choices` attribute, the Organization Context Loader leaves the
context unset (`None`) instead of producing a mapping with
`entity_name` and `role_in_custodian_regulations`. -/
theorem org_context_c6_bug :
    org_context_node "Acme Corp" (WebSearchOutcome.success false "") = none := rfl

/-- Claim C7 is false as stated: on the reply
`"ACTIONABLE:ACTIONABLE: [VERIFY] x"` the code removes every
occurrence of the marker (yielding `"[VERIFY] x"`), while the claim's
parse — the line with the leading marker stripped — yields
`"ACTIONABLE: [VERIFY] x"`. -/
theorem actionable_c7_counterexample :
    (actionable_node "ACTIONABLE:ACTIONABLE: [VERIFY] x".toList).actionables
      = ["[VERIFY] x".toList]
    ∧ actionablesClaimed "ACTIONABLE:ACTIONABLE: [VERIFY] x".toList
      = ["ACTIONABLE: [VERIFY] x".toList]
    ∧ (actionable_node "ACTIONABLE:ACTIONABLE: [VERIFY] x".toList).actionables
      ≠ actionablesClaimed "ACTIONABLE:ACTIONABLE: [VERIFY] x".toList := by
  decide

/-- Claim C7 as amended: if the stripped reply starts with
`NOT_APPLICABLE` the node outputs `is_applicable = false` and no
actionables; otherwise it outputs, in order of appearance, for every
line whose whitespace-stripped form begins with the `ACTIONABLE:`
marker, the line with every occurrence of the marker removed and
whitespace trimmed, dropping results that come out empty; it sets
`is_applicable = true` even when zero such lines were parsed, and
`actionable_count` always equals the length of `actionables`. -/
theorem actionable_c7_amended (reply : List Char) :
    ((actionable_node reply).is_applicable = false
      ↔ listStartsWith notApplicableMarker (stripList reply) = true)
    ∧ (actionable_node reply).actionable_count
        = (actionable_node reply).actionables.length
    ∧ (listStartsWith notApplicableMarker (stripList reply) = true →
        (actionable_node reply).actionables = [])
    ∧ (listStartsWith notApplicableMarker (stripList reply) = false →
        (actionable_node reply).actionables = actionablesAmended reply) := by
  unfold actionable_node actionablesAmended
  by_cases h : listStartsWith notApplicableMarker (stripList reply) = true
  · simp [h]
  · simp [h]
    exact (foldl_appendParsed (splitNL (stripList reply)) []).trans (List.nil_append _)

/-- Instantiation of `actionable_c7_amended` at a concrete
not-applicable reply. -/
theorem actionable_c7_witness :
    (actionable_node "NOT_APPLICABLE: no gold custody".toList).actionables = [] :=
  (actionable_c7_amended _).2.2.1 (by decide)

/-- Claim C8: every clause whose lowercased text contains
`shall mean` is classified `definition` by the Classifier for every
behavior of the reference-pattern matchers and of the oracle
(including an unavailable or failing oracle), and the oracle is not
called (the returned flag records whether the oracle was invoked). -/
theorem classifier_c8
    (internalRefMatch externalRefMatch : List Char → Bool)
    (oracle : List Char → Option (List Char)) (clause : List Char)
    (h : listHasSub "shall mean".toList (lowerList clause) = true) :
    classifier_node internalRefMatch externalRefMatch oracle clause
      = some ("definition", false) := by
  have hany : definitionPhrases.any (fun p => listHasSub p (lowerList clause)) = true := by
    simp only [definitionPhrases, List.any_cons, List.any_nil, Bool.or_false,
      Bool.or_eq_true]
    exact Or.inr (Or.inr (Or.inl h))
  simp [classifier_node, hany]

/-- Instantiation of `classifier_c8` at an uppercase occurrence of the
phrase, with the oracle unavailable. -/
theorem classifier_c8_witness :
    classifier_node (fun _ => false) (fun _ => false) (fun _ => none)
      "Custodial services SHALL MEAN safekeeping of securities.".toList
      = some ("definition", false) :=
  classifier_c8 _ _ _ _ (by decide)

/-- Claim C9: in batch mode a failing `process_clause` call is
recorded against exactly that chunk as a record carrying an error
marker, `is_applicable = false` and zero actionables, and the driver
still emits one record per non-skipped chunk of the whole corpus (the
run is never aborted by a per-clause failure). -/
theorem batch_c9 (proc : Chunk → Except String ClauseResult)
    (skip_toc : Bool) (chunks : List Chunk) :
    (∀ rec ∈ (process_all_chunks proc skip_toc chunks).results,
        rec.error.isSome = true →
        rec.is_applicable = false ∧ rec.actionables = [] ∧ rec.actionable_count = 0)
    ∧ (∀ c ∈ chunks, shouldSkipChunk skip_toc c = false →
        ∀ e, proc c = .error e →
          errRecord c.chunk_id e ∈ (process_all_chunks proc skip_toc chunks).results)
    ∧ (process_all_chunks proc skip_toc chunks).results.length
        = (chunks.filter (fun c => !shouldSkipChunk skip_toc c)).length := by
  refine ⟨?_, ?_, ?_⟩
  · intro rec hrec herr
    rw [batch_results_eq] at hrec
    obtain ⟨c, hc, hrc⟩ := List.mem_map.mp hrec
    cases hp : proc c with
    | ok r =>
      rw [hp] at hrc
      rw [← hrc] at herr
      simp [okRecord] at herr
    | error e =>
      rw [hp] at hrc
      rw [← hrc]
      exact ⟨rfl, rfl, rfl⟩
  · intro c hc hs e hp
    rw [batch_results_eq]
    refine List.mem_map.mpr ⟨c, ?_, ?_⟩
    · exact List.mem_filter.mpr ⟨hc, by rw [hs]; rfl⟩
    · rw [hp]
  · rw [batch_results_eq, List.length_map]

/-- Instantiation of `batch_c9` at a one-chunk corpus whose processing
raises: the error record for that chunk is present in the results. -/
theorem batch_c9_witness :
    errRecord "c1" "boom" ∈
      (process_all_chunks (fun _ => Except.error "boom") true
        [⟨"c1", "body", "This clause requires the custodian to maintain records of all transactions."⟩]).results :=
  (batch_c9 _ _ _).2.1
    ⟨"c1", "body", "This clause requires the custodian to maintain records of all transactions."⟩
    (by simp) (by decide) "boom" rfl

/-- Claim C10: a chunk is skipped exactly when its stripped content is
shorter than 50 characters or (with TOC-skipping enabled) its section
type is `toc` or `preamble`; skipped chunks are counted in
`skipped_chunks`, contribute no entry to the per-clause results and no
actionables to the totals, and the clause pipeline is never invoked on
them (the driver's output does not depend on the pipeline's behavior
on skipped chunks). -/
theorem batch_c10 (proc proc' : Chunk → Except String ClauseResult)
    (skip_toc : Bool) (chunks : List Chunk) :
    ((∀ c ∈ chunks, shouldSkipChunk skip_toc c = false → proc c = proc' c) →
      process_all_chunks proc skip_toc chunks
        = process_all_chunks proc' skip_toc chunks)
    ∧ (process_all_chunks proc skip_toc chunks).skipped_chunks
        = (chunks.filter (shouldSkipChunk skip_toc)).length
    ∧ (process_all_chunks proc skip_toc chunks).results
        = (chunks.filter (fun c => !shouldSkipChunk skip_toc c)).map
            (fun c => match proc c with
              | .ok r => okRecord r
              | .error e => errRecord c.chunk_id e)
    ∧ (process_all_chunks proc skip_toc chunks).total_actionables
        = ((chunks.filter (fun c => !shouldSkipChunk skip_toc c)).map
            (fun c => match proc c with
              | .ok r => if r.is_applicable then r.actionable_count else 0
              | .error _ => 0)).sum
    ∧ (∀ c : Chunk, shouldSkipChunk skip_toc c = true
        ↔ ((stripList c.content.toList).length < 50
            ∨ (skip_toc = true ∧ (c.section_type = "toc" ∨ c.section_type = "preamble")))) := by
  refine ⟨batch_congr proc proc' skip_toc chunks,
    batch_skipped_eq proc skip_toc chunks,
    batch_results_eq proc skip_toc chunks,
    batch_totals_eq proc skip_toc chunks, ?_⟩
  intro c
  simp only [shouldSkipChunk, Bool.or_eq_true, Bool.and_eq_true, beq_iff_eq,
    decide_eq_true_eq]
  constructor
  · rintro (⟨hs, hsec⟩ | hB | hC)
    · exact Or.inr ⟨hs, hsec⟩
    · exact Or.inl (by rw [hB]; decide)
    · exact Or.inl hC
  · rintro (hC | ⟨hs, hsec⟩)
    · exact Or.inr (Or.inr hC)
    · exact Or.inl ⟨hs, hsec⟩

/-- Instantiation of `batch_c10` at a one-chunk TOC corpus: the driver
output is the same whether the pipeline would succeed or raise there. -/
theorem batch_c10_witness :
    process_all_chunks (fun c => Except.ok ⟨c.chunk_id, "direct_req", true, ["a"], 1⟩) true
      [⟨"t1", "toc", "This table of contents chunk is long enough to pass the length filter easily."⟩]
    = process_all_chunks (fun _ => Except.error "never called") true
      [⟨"t1", "toc", "This table of contents chunk is long enough to pass the length filter easily."⟩] :=
  (batch_c10 _ _ _ _).1 (by
    intro c hc hsk
    rw [List.mem_singleton] at hc
    subst hc
    exact absurd hsk (by decide))

end Onfin
